import Mathlib

/-!
Verification of the Quiz-game core.

Shallow embedding of the quiz session state machine, scoring calculator,
leaderboard store and configuration resolver of the Quiz-game repository
(`src/MainPanel.tsx`, `src/index.tsx`, `src/AnswerPanel.tsx`,
`src/OptionsPanel.tsx`), together with theorems settling the spec claims.

Numbers are modelled exactly: JS integer-valued numbers as `Nat`/`Int`,
fractional scores as `Rat`.
-/

namespace QuizGame

/-- A quiz question as consumed by `MainPanel` (`QuizQuestion` in
`MainPanel.tsx`): the correct answer is conventionally first in `options`. -/
structure QuizQuestion where
  type : String
  question : String
  correctAnswer : String
  options : List String
  category : String
  difficulty : String
deriving DecidableEq, Inhabited

/-- The per-session mutable state of `MainPanel`: the `useState` hooks
`index`, `score`, `trueScore`, `answered`, `countdown`, `timeExpired`,
`finished`. -/
structure SessionState where
  index : Nat
  score : Nat
  trueScore : Rat
  answered : Bool
  countdown : Int
  timeExpired : Bool
  finished : Bool
deriving DecidableEq

/-- Initial state of a session: `useState(0)`, `useState(0)`, `useState(0)`,
`useState(false)`, `useState(10)`, `useState(false)`, `useState(false)`. -/
def initState : SessionState :=
  { index := 0, score := 0, trueScore := 0, answered := false,
    countdown := 10, timeExpired := false, finished := false }

/-- Function `weight` from `MainPanel.tsx`: difficulty multiplier
(`hard → 1.7`, `medium → 1.3`, anything else `→ 1`). -/
def weight (difficulty : String) : Rat :=
  if difficulty = "hard" then 17/10
  else if difficulty = "medium" then 13/10
  else 1

/-- Constant `correctIndex` of `AnswerPanel.tsx`: `useState(0)` — the first answer is
the correct one, and `setCorrectIndex` is never called afterwards. -/
def correctIndex : Nat := 0

/-- Judgment made by `AnswerPanel.handleClick`: `index === correctIndex`. -/
def judgeAnswer (i : Nat) : Bool := i == correctIndex

/-- Function `handleAnswer` from `MainPanel.tsx`: ignores the submission when already
`answered`; otherwise locks the question and, when the judgment was correct,
adds 1 to `score` and `weight(questions[index].difficulty)` to `trueScore`. -/
def handleAnswer (qs : List QuizQuestion) (s : SessionState)
    (isCorrect : Bool) : SessionState :=
  if s.answered then s
  else if isCorrect then
    { s with answered := true,
             score := s.score + 1,
             trueScore := s.trueScore +
               weight ((qs.getD s.index default).difficulty) }
  else { s with answered := true }

/-- The time decay factor computed in `handleNext`:
`60 / Math.max(60, elapsedSeconds || 1)`. -/
def timeFactor (elapsedSeconds : Nat) : Rat :=
  60 / max 60 (if elapsedSeconds = 0 then 1 else (elapsedSeconds : Rat))

/-- Function `handleNext` from `MainPanel.tsx`, fused with the `useEffect` on `[index]`
that resets `countdown` to 10 and clears `timeExpired` whenever the index
changes.  On the last question it sets `finished` and emits
`(score, trueScore * timeFactor)` through `onComplete`. -/
def handleNext (qs : List QuizQuestion) (elapsedSeconds : Nat)
    (s : SessionState) : SessionState × Option (Nat × Rat) :=
  if s.index < qs.length - 1 then
    ({ s with index := s.index + 1, answered := false,
              countdown := 10, timeExpired := false }, none)
  else
    ({ s with finished := true },
     some (s.score, s.trueScore * timeFactor elapsedSeconds))

/-- The countdown `useEffect` of `MainPanel.tsx`, seen as one tick event:
inert once the question is answered, expired or the session finished;
at `countdown ≤ 0` it locks the question with `timeExpired` (and `answered`)
set; otherwise the interval decrements `countdown` by one. -/
def tick (s : SessionState) : SessionState :=
  if s.answered || s.timeExpired || s.finished then s
  else if s.countdown ≤ 0 then { s with timeExpired := true, answered := true }
  else { s with countdown := s.countdown - 1 }

/-- The events that mutate a session state: a timer tick, a click on answer
`i` (judged by `AnswerPanel.handleClick`), and the Next/Finish button (enabled
only once `answered`, absent once `finished`). -/
inductive Step (qs : List QuizQuestion) : SessionState → SessionState → Prop
  | tick (s : SessionState) : Step qs s (tick s)
  | answer (s : SessionState) (i : Nat) (h : s.finished = false) :
      Step qs s (handleAnswer qs s (judgeAnswer i))
  | next (s : SessionState) (e : Nat) (h : s.answered = true)
      (h2 : s.finished = false) : Step qs s (handleNext qs e s).1

/-- States reachable from the initial session state by the events above. -/
inductive Reachable (qs : List QuizQuestion) : SessionState → Prop
  | init : Reachable qs initState
  | step {s t : SessionState} : Reachable qs s → Step qs s t → Reachable qs t

/-! ## Basic facts about the weight function and the countdown invariant -/

lemma weight_easy : weight ("easy") = 1 := by
  rw [weight, if_neg (by decide), if_neg (by decide)]

lemma weight_medium : weight ("medium") = 13/10 := by
  rw [weight, if_neg (by decide), if_pos rfl]

lemma weight_hard : weight ("hard") = 17/10 := rfl

lemma weight_default (d : String) (hm : d ≠ "medium") (hh : d ≠ "hard") :
    weight d = 1 := by
  rw [weight, if_neg hh, if_neg hm]

lemma countdown_bounds {qs : List QuizQuestion} {s : SessionState}
    (h : Reachable qs s) : 0 ≤ s.countdown ∧ s.countdown ≤ 10 := by
  induction h with
  | init => simp [initState]
  | step _ hstep ih =>
    cases hstep with
    | tick =>
      unfold tick
      split
      · exact ih
      · split
        · simpa using ih
        · simp only []
          omega
    | answer i h =>
      unfold handleAnswer
      split
      · exact ih
      · split <;> simpa using ih
    | next e h h2 =>
      unfold handleNext
      split
      · simp
      · simpa using ih

lemma timeFactor_eq (e : Nat) :
    timeFactor e = 60 / ((max 60 e : Nat) : Rat) := by
  unfold timeFactor
  rcases Nat.eq_zero_or_pos e with h | h
  · subst h; norm_num
  · rw [if_neg (by omega)]
    push_cast [Nat.cast_max]
    ring_nf

lemma timeFactor_of_le (e : Nat) (h : e ≤ 60) : timeFactor e = 1 := by
  unfold timeFactor
  rcases Nat.eq_zero_or_pos e with h0 | h0
  · subst h0; norm_num
  · rw [if_neg (by omega), max_eq_left (by exact_mod_cast h)]
    norm_num

/-- C1: on the last question, `handleNext` finalizes the session with
`finalWeightedScore = weightedScoreRunning * (60 / max 60 elapsedSecondsTotal)`;
whenever `elapsedSecondsTotal ≤ 60` the factor is 1 and the final score equals
the running score exactly; and `(correctCount, finalWeightedScore)` is exactly
the pair emitted through `onComplete` on `Finished`. -/
theorem finalize_weighted_score (qs : List QuizQuestion) (s : SessionState)
    (ts : Rat) (e : Nat) (hlast : ¬ s.index < qs.length - 1) :
    ts * timeFactor e = ts * (60 / ((max 60 e : Nat) : Rat)) ∧
    (e ≤ 60 → ts * timeFactor e = ts) ∧
    (handleNext qs e s).2 = some (s.score, s.trueScore * timeFactor e) := by
  refine ⟨by rw [timeFactor_eq], ?_, ?_⟩
  · intro he
    rw [timeFactor_of_le e he, mul_one]
  · unfold handleNext
    rw [if_neg hlast]

/-- Witness for C1 at `elapsedSeconds = 30`, running score 4, on the single
question of a one-question session. -/
theorem finalize_weighted_score_witness :
    (4 : Rat) * timeFactor 30 = 4 * (60 / ((max 60 30 : Nat) : Rat)) ∧
    (30 ≤ 60 → (4 : Rat) * timeFactor 30 = 4) ∧
    (handleNext [default] 30 initState).2 =
      some (initState.score, initState.trueScore * timeFactor 30) :=
  finalize_weighted_score [default] initState 4 30 (by decide)

/-- C2: the difficulty weight function returns exactly 1 for `easy`,
13/10 for `medium`, 17/10 for `hard`, and 1 for every other string;
hence `weight easy < weight medium < weight hard`. -/
theorem weight_values_and_monotone :
    weight ("easy") = 1 ∧ weight ("medium") = 13/10 ∧ weight ("hard") = 17/10 ∧
    (∀ d : String, d ≠ "easy" → d ≠ "medium" → d ≠ "hard" → weight d = 1) ∧
    weight ("easy") < weight ("medium") ∧ weight ("medium") < weight ("hard") := by
  refine ⟨weight_easy, weight_medium, weight_hard, ?_, ?_, ?_⟩
  · intro d _ hm hh
    exact weight_default d hm hh
  · rw [weight_easy, weight_medium]; norm_num
  · rw [weight_medium, weight_hard]; norm_num

/-- C3: in every reachable session state `0 ≤ countdown ≤ 10`; the initial
countdown is 10 and advancing to a further question resets it to 10 with
`timeExpired` and `answered` cleared; a tick decrements the countdown by one
exactly while the question is unanswered, unexpired and the session
unfinished; ticks are inert once locked; and an unanswered countdown at 0
locks the question with `timeExpired = true` while `correctCount` and
`weightedScoreRunning` stay unchanged. -/
theorem countdown_invariant (qs : List QuizQuestion) (s : SessionState)
    (e : Nat) (h : Reachable qs s) :
    (0 ≤ s.countdown ∧ s.countdown ≤ 10) ∧
    initState.countdown = 10 ∧
    (s.index < qs.length - 1 →
      (handleNext qs e s).1.countdown = 10 ∧
      (handleNext qs e s).1.timeExpired = false ∧
      (handleNext qs e s).1.answered = false) ∧
    (s.answered = false → s.timeExpired = false → s.finished = false →
      0 < s.countdown → tick s = { s with countdown := s.countdown - 1 }) ∧
    ((s.answered = true ∨ s.timeExpired = true ∨ s.finished = true) →
      tick s = s) ∧
    (s.answered = false → s.timeExpired = false → s.finished = false →
      s.countdown ≤ 0 →
      (tick s).timeExpired = true ∧ (tick s).answered = true ∧
      (tick s).score = s.score ∧ (tick s).trueScore = s.trueScore) := by
  refine ⟨countdown_bounds h, rfl, ?_, ?_, ?_, ?_⟩
  · intro hlt
    unfold handleNext
    rw [if_pos hlt]
    exact ⟨rfl, rfl, rfl⟩
  · intro h1 h2 h3 h4
    unfold tick
    rw [if_neg (by simp [h1, h2, h3]), if_neg (by omega)]
  · intro hcase
    unfold tick
    rcases hcase with h1 | h1 | h1 <;> simp [h1]
  · intro h1 h2 h3 h4
    unfold tick
    rw [if_neg (by simp [h1, h2, h3]), if_pos h4]
    simp

/-- Witness for C3 at the initial state of a two-question session. -/
theorem countdown_invariant_witness :
    Reachable [default, default] initState ∧
    ((0 ≤ initState.countdown ∧ initState.countdown ≤ 10) ∧
      initState.countdown = 10 ∧
      (initState.index < ([default, default] : List QuizQuestion).length - 1 →
        (handleNext [default, default] 0 initState).1.countdown = 10 ∧
        (handleNext [default, default] 0 initState).1.timeExpired = false ∧
        (handleNext [default, default] 0 initState).1.answered = false) ∧
      (initState.answered = false → initState.timeExpired = false →
        initState.finished = false → 0 < initState.countdown →
        tick initState =
          { initState with countdown := initState.countdown - 1 }) ∧
      ((initState.answered = true ∨ initState.timeExpired = true ∨
          initState.finished = true) → tick initState = initState) ∧
      (initState.answered = false → initState.timeExpired = false →
        initState.finished = false → initState.countdown ≤ 0 →
        (tick initState).timeExpired = true ∧
        (tick initState).answered = true ∧
        (tick initState).score = initState.score ∧
        (tick initState).trueScore = initState.trueScore)) :=
  ⟨Reachable.init,
   countdown_invariant [default, default] initState 0 Reachable.init⟩

/-- C6: with the correct answer sitting (only) at the head of `options`,
the judgment `i == correctIndex` made by `AnswerPanel.handleClick` holds
exactly when the chosen option equals the `correctAnswer` of the question; a correct submission
adds 1 to `score` and `weight(difficulty)` to `trueScore`, an incorrect one
only locks the question, leaving both unchanged. -/
theorem submit_judges_by_correct_answer (qs : List QuizQuestion)
    (q : QuizQuestion) (s : SessionState) (i : Nat)
    (hq : qs.get? s.index = some q)
    (hhead : q.options.head? = some q.correctAnswer)
    (hrest : ∀ j, 0 < j → q.options.get? j ≠ some q.correctAnswer)
    (hi : i < q.options.length)
    (hans : s.answered = false) :
    (judgeAnswer i = true ↔ q.options.get? i = some q.correctAnswer) ∧
    (judgeAnswer i = true →
      handleAnswer qs s (judgeAnswer i) =
        { s with answered := true, score := s.score + 1,
                 trueScore := s.trueScore + weight q.difficulty }) ∧
    (judgeAnswer i = false →
      handleAnswer qs s (judgeAnswer i) = { s with answered := true }) := by
  have hjudge : judgeAnswer i = true ↔ i = 0 := by
    simp [judgeAnswer, correctIndex]
  have hget : qs.getD s.index default = q := by
    rw [List.getD_eq_getD_get?, hq]; rfl
  refine ⟨?_, ?_, ?_⟩
  · rw [hjudge]
    constructor
    · rintro rfl
      cases hops : q.options with
      | nil => rw [hops] at hhead; simp at hhead
      | cons a t =>
        rw [hops] at hhead
        simpa using hhead
    · intro hopt
      by_contra hne
      exact hrest i (Nat.pos_of_ne_zero hne) hopt
  · intro ht
    unfold handleAnswer
    rw [hget]
    simp [hans, ht]
  · intro hf
    unfold handleAnswer
    simp [hans, hf]

/-- Witness for C6: a one-question session with options `["a", "b"]`,
correct answer `"a"`, choosing option 0. -/
theorem submit_judges_witness :
    (judgeAnswer 0 = true ↔
      (["a", "b"] : List String).get? 0 = some ("a")) ∧
    (judgeAnswer 0 = true →
      handleAnswer [⟨"multiple", "q", "a", ["a", "b"], "cat", "easy"⟩]
          initState (judgeAnswer 0) =
        { initState with answered := true, score := initState.score + 1,
                         trueScore := initState.trueScore + weight ("easy") }) ∧
    (judgeAnswer 0 = false →
      handleAnswer [⟨"multiple", "q", "a", ["a", "b"], "cat", "easy"⟩]
          initState (judgeAnswer 0) = { initState with answered := true }) :=
  submit_judges_by_correct_answer
    [⟨"multiple", "q", "a", ["a", "b"], "cat", "easy"⟩]
    ⟨"multiple", "q", "a", ["a", "b"], "cat", "easy"⟩ initState 0
    (by rfl) (by rfl)
    (by
      intro j hj
      match j with
      | 1 => decide
      | n + 2 => simp [List.get?])
    (by decide) rfl

/-- C7: once a question is locked (`answered = true`, whether by submission
or expiry), every further submission is a silent no-op: `handleAnswer`
returns the state unchanged for every judged choice. -/
theorem locked_submit_noop (qs : List QuizQuestion) (s : SessionState)
    (b : Bool) (h : s.answered = true) : handleAnswer qs s b = s := by
  unfold handleAnswer
  rw [if_pos h]

/-- Witness for C7: submitting again after the initial state was locked. -/
theorem locked_submit_noop_witness :
    handleAnswer [] { initState with answered := true } true =
      { initState with answered := true } :=
  locked_submit_noop [] { initState with answered := true } true rfl

/-! ## Leaderboard store (`saveToLeaderboard` and the `useState` initializer
in `index.tsx`) -/

/-- Type `LeaderboardEntry` from `index.tsx`: `score` is the number of correct
answers, `trueScore` the weighted score. -/
structure LeaderboardEntry where
  name : String
  score : Int
  trueScore : Rat
  date : String
deriving DecidableEq, Inhabited

/-- The comparator passed to `Array.prototype.sort` in `saveToLeaderboard`:
`(a, b) => b.trueScore - a.trueScore || b.score - a.score`. -/
def cmpEntries (a b : LeaderboardEntry) : Rat :=
  if b.trueScore - a.trueScore ≠ 0 then b.trueScore - a.trueScore
  else ((b.score - a.score : Int) : Rat)

/-- Entry `a` sorts no later than `b` under the comparator (`cmpEntries a b ≤ 0`). -/
def entryLE (a b : LeaderboardEntry) : Prop := cmpEntries a b ≤ 0

instance : DecidableRel entryLE := fun a b =>
  inferInstanceAs (Decidable (cmpEntries a b ≤ 0))

lemma entryLE_iff (a b : LeaderboardEntry) :
    entryLE a b ↔ b.trueScore < a.trueScore ∨
      (b.trueScore = a.trueScore ∧ b.score ≤ a.score) := by
  unfold entryLE cmpEntries
  by_cases h : b.trueScore - a.trueScore ≠ 0
  · rw [if_pos h]
    constructor
    · intro hle
      left
      have hne : b.trueScore - a.trueScore < 0 := lt_of_le_of_ne hle h
      linarith
    · rintro (hlt | ⟨heq, _⟩)
      · linarith
      · exact absurd (by linarith : b.trueScore - a.trueScore = 0) h
  · rw [if_neg h]
    push_neg at h
    have heq : b.trueScore = a.trueScore := by linarith
    constructor
    · intro hle
      right
      refine ⟨heq, ?_⟩
      have : (b.score - a.score : Int) ≤ 0 := by exact_mod_cast hle
      omega
    · rintro (hlt | ⟨_, hs⟩)
      · exact absurd heq hlt.ne
      · have : (b.score - a.score : Int) ≤ 0 := by omega
        exact_mod_cast this

instance : IsTotal LeaderboardEntry entryLE := ⟨by
  intro a b
  rw [entryLE_iff, entryLE_iff]
  rcases lt_trichotomy a.trueScore b.trueScore with h | h | h
  · right; left; exact h
  · rcases le_total b.score a.score with hs | hs
    · left; right; exact ⟨h.symm, hs⟩
    · right; right; exact ⟨h, hs⟩
  · left; left; exact h⟩

instance : IsTrans LeaderboardEntry entryLE := ⟨by
  intro a b c hab hbc
  rw [entryLE_iff] at hab hbc ⊢
  rcases hab with h1 | ⟨h1, h1s⟩ <;> rcases hbc with h2 | ⟨h2, h2s⟩
  · left; linarith
  · left; linarith
  · left; linarith
  · right; exact ⟨by linarith, le_trans h2s h1s⟩⟩

/-- Function `saveToLeaderboard` from `index.tsx`, as a function of the inserted entry
and the previous list: `[entry, ...prev]` is stably sorted by the comparator
and truncated to the first 10 entries (`slice(0, 10)`); the persistence write
is fire-and-forget and the list below is what is returned either way. -/
def saveToLeaderboard (entry : LeaderboardEntry)
    (prev : List LeaderboardEntry) : List LeaderboardEntry :=
  (List.insertionSort entryLE (entry :: prev)).take 10

/-- Entry `a` ranks at least as high as `b`: strictly larger weighted score, or
equal weighted score and at least as many correct answers. -/
def rankedAbove (a b : LeaderboardEntry) : Prop :=
  a.trueScore > b.trueScore ∨
    (a.trueScore = b.trueScore ∧ a.score ≥ b.score)

lemma entryLE_imp_rankedAbove {a b : LeaderboardEntry}
    (h : entryLE a b) : rankedAbove a b := by
  rw [entryLE_iff] at h
  rcases h with h | ⟨heq, hs⟩
  · exact Or.inl h
  · exact Or.inr ⟨heq.symm, hs⟩

/-- C4: after every save the leaderboard holds at most 10 entries, for every
prior list and every inserted entry. -/
theorem save_length_le_ten (entry : LeaderboardEntry)
    (prev : List LeaderboardEntry) :
    (saveToLeaderboard entry prev).length ≤ 10 := by
  unfold saveToLeaderboard
  rw [List.length_take]
  exact min_le_left _ _

/-- C5: the list returned by save is sorted: every adjacent pair `(a, b)`
satisfies `a.trueScore > b.trueScore`, or `a.trueScore = b.trueScore` and
`a.score ≥ b.score` — for every prior list and inserted entry. -/
theorem save_sorted (entry : LeaderboardEntry)
    (prev : List LeaderboardEntry) :
    List.Chain' rankedAbove (saveToLeaderboard entry prev) := by
  have hs : List.Sorted entryLE
      (List.insertionSort entryLE (entry :: prev)) :=
    List.sorted_insertionSort entryLE _
  have hp : List.Pairwise entryLE (saveToLeaderboard entry prev) :=
    List.Pairwise.sublist (List.take_sublist _ _) hs
  exact (hp.imp fun h => entryLE_imp_rankedAbove h).chain'

/-- C10: ties newest-first — the saved list is the truncation of
`l₁ ++ entry :: l₂` where every element of `l₁` strictly outranks the new
entry (so no older entry tied on both keys precedes it) and `l₁ ++ l₂` is a
permutation of the prior list. -/
theorem save_ties_newest_first (entry : LeaderboardEntry)
    (prev : List LeaderboardEntry) :
    ∃ l₁ l₂ : List LeaderboardEntry,
      saveToLeaderboard entry prev = (l₁ ++ entry :: l₂).take 10 ∧
      (∀ a ∈ l₁, a.trueScore > entry.trueScore ∨
        (a.trueScore = entry.trueScore ∧ a.score > entry.score)) ∧
      (l₁ ++ l₂).Perm prev := by
  refine ⟨(List.insertionSort entryLE prev).takeWhile
            (fun b => ¬ entryLE entry b),
          (List.insertionSort entryLE prev).dropWhile
            (fun b => ¬ entryLE entry b), ?_, ?_, ?_⟩
  · unfold saveToLeaderboard
    rw [show List.insertionSort entryLE (entry :: prev) =
          List.orderedInsert entryLE entry
            (List.insertionSort entryLE prev) from rfl,
        List.orderedInsert_eq_take_drop]
  · intro a ha
    have hpa := List.mem_takeWhile_imp ha
    have hna : ¬ entryLE entry a := by simpa using hpa
    rw [entryLE_iff] at hna
    push_neg at hna
    obtain ⟨hge, himp⟩ := hna
    rcases eq_or_lt_of_le hge with heq | hlt
    · exact Or.inr ⟨heq.symm, himp heq.symm⟩
    · exact Or.inl hlt
  · rw [List.takeWhile_append_dropWhile]
    exact List.perm_insertionSort entryLE prev

/-- A record as persisted under `quiz:leaderboard`: both `score` and
`trueScore` may be absent from a legacy record. -/
structure StoredRecord where
  name : String
  score : Option Int
  trueScore : Option Rat
  date : String
deriving DecidableEq, Inhabited

/-- The entry shape produced by the leaderboard `useState` initializer:
`score` is passed through as read, `trueScore` is `e.trueScore ?? e.score
?? 0`. -/
structure LoadedEntry where
  name : String
  score : Option Int
  trueScore : Rat
  date : String
deriving DecidableEq, Inhabited

/-- The record mapping inside the initializer:
`{name, score, trueScore: e.trueScore ?? e.score ?? 0, date}`. -/
def entryOfStored (e : StoredRecord) : LoadedEntry :=
  { name := e.name, score := e.score,
    trueScore := e.trueScore.getD ((e.score.map fun s => (s : Rat)).getD 0),
    date := e.date }

/-- The leaderboard `useState` initializer of `index.tsx`: `none` models an
unreadable or unparsable stored value (the `catch` branch as well as a
missing slot, both of which produce the empty list); a parsed array is
mapped through `entryOfStored`. -/
def loadLeaderboard (stored : Option (List StoredRecord)) :
    List LoadedEntry :=
  match stored with
  | none => []
  | some l => l.map entryOfStored

/-- C8: a persisted record lacking `trueScore` loads with `trueScore`
defaulted to its `score`, and an unreadable or unparsable stored value loads
as the empty list rather than an error. -/
theorem load_defaults_and_recovers (rec : StoredRecord) (s : Int)
    (hts : rec.trueScore = none) (hs : rec.score = some s) :
    (entryOfStored rec).trueScore = (s : Rat) ∧
    loadLeaderboard (some [rec]) = [entryOfStored rec] ∧
    loadLeaderboard none = [] := by
  refine ⟨?_, rfl, rfl⟩
  unfold entryOfStored
  rw [hts, hs]
  rfl

/-- Witness for C8: a legacy record with `score = 3` and no `trueScore`. -/
theorem load_defaults_witness :
    (entryOfStored ⟨"p", some 3, none, "d"⟩).trueScore = ((3 : Int) : Rat) ∧
    loadLeaderboard (some [⟨"p", some 3, none, "d"⟩]) =
      [entryOfStored ⟨"p", some 3, none, "d"⟩] ∧
    loadLeaderboard none = [] :=
  load_defaults_and_recovers ⟨"p", some 3, none, "d"⟩ 3 rfl rfl

/-! ## Configuration resolver (`buildApiUrl` in `index.tsx`) -/

/-- Difficulty option of `GameOptions` in `OptionsPanel.tsx`. -/
inductive DifficultyOpt
  | easy | medium | hard | any
deriving DecidableEq, Inhabited

/-- Question-type option of `GameOptions` in `OptionsPanel.tsx`. -/
inductive TypeOpt
  | boolean | multiple | any
deriving DecidableEq, Inhabited

/-- Type `GameOptions` from `OptionsPanel.tsx`. -/
structure GameOptions where
  amount : Nat
  category : Nat
  difficulty : DifficultyOpt
  type : TypeOpt
deriving DecidableEq, Inhabited

/-- The query parameters `buildApiUrl` sets on the `URLSearchParams`:
a present key is `some`, an omitted key is `none`. -/
structure QueryDescriptor where
  amount : Nat
  category : Option Nat
  difficulty : Option DifficultyOpt
  type : Option TypeOpt
deriving DecidableEq, Inhabited

/-- Function `buildApiUrl` from `index.tsx`: sets `amount` always, `category` only
when `> 0`, `difficulty` only when not `any`, `type` only when not `any`. -/
def buildApiUrl (opts : GameOptions) : QueryDescriptor :=
  { amount := opts.amount,
    category := if opts.category > 0 then some opts.category else none,
    difficulty := if opts.difficulty ≠ DifficultyOpt.any
      then some opts.difficulty else none,
    type := if opts.type ≠ TypeOpt.any then some opts.type else none }

/-- C9: the resolved query descriptor always carries `amount`, carries
`category` exactly when it is nonzero, `difficulty` exactly when it is not
`any`, and `type` exactly when it is not `any`; the default options
`{amount := 5, category := 0, difficulty := any, type := any}` resolve to a
descriptor containing only `amount`. -/
theorem resolve_query_descriptor (opts : GameOptions) :
    (buildApiUrl opts).amount = opts.amount ∧
    ((buildApiUrl opts).category.isSome = true ↔ opts.category ≠ 0) ∧
    ((buildApiUrl opts).difficulty.isSome = true ↔
      opts.difficulty ≠ DifficultyOpt.any) ∧
    ((buildApiUrl opts).type.isSome = true ↔ opts.type ≠ TypeOpt.any) ∧
    buildApiUrl ⟨5, 0, DifficultyOpt.any, TypeOpt.any⟩ =
      ⟨5, none, none, none⟩ := by
  refine ⟨rfl, ?_, ?_, ?_, rfl⟩
  · unfold buildApiUrl
    by_cases h : opts.category > 0
    · simp only [if_pos h]
      simpa using Nat.pos_iff_ne_zero.mp h
    · simp only [if_neg h]
      have h0 : opts.category = 0 := by omega
      simp [h0]
  · unfold buildApiUrl
    by_cases h : opts.difficulty ≠ DifficultyOpt.any <;> simp [h]
  · unfold buildApiUrl
    by_cases h : opts.type ≠ TypeOpt.any <;> simp [h]

end QuizGame
